import Mathlib

set_option maxRecDepth 20000

/-!
# Verification of the whatsapp-golem context-assembly and dispatch pipeline

This file gives a shallow embedding, in Lean 4, of the core of the
whatsapp-golem repository: the trigger/command classifier, the per-sender
rate limiter (`services/rateLimiter.ts`), the transcription cache
(`services/audioService.ts`), the planner response parsing
(`agents/planner.ts`, in both its shapes: the current one with a
`time_ranges` array and the legacy one with a single `time_range`), and the
context-gathering pipeline of `index.ts` (`handleCurrentMessageMedia`,
`handleHistoricalContext`, `processHistoryMessage`, `gatherContext`).

External capabilities (the WhatsApp transport, media download, the
transcription API, `JSON.parse`, `Date` arithmetic) are modelled as explicit
function parameters collected in an `Env` structure; fallible calls return
`Except Unit _`.  JavaScript truthiness is modelled explicitly where the code
relies on it (empty string and `0` are falsy).  Context units carry two
bookkeeping fields, `kind` (which assembly step produced the unit) and
`srcId` (the id of the source message the unit was built from); both are
determined by the construction site in the source and are used only to state
ordering and attribution invariants.
-/

/-! ## String utilities (JS `includes`, `replace`, case-insensitive regexes) -/

/-- `subAt pat l` : `pat` occurs at the head of `l` (case-sensitive). -/
def subAt : List Char → List Char → Bool
  | [], _ => true
  | _ :: _, [] => false
  | p :: ps, c :: cs => p == c && subAt ps cs

/-- `hasSub pat l` : `pat` occurs somewhere in `l` (JS `String.includes`). -/
def hasSub (pat : List Char) : List Char → Bool
  | [] => subAt pat []
  | c :: cs => subAt pat (c :: cs) || hasSub pat cs

/-- JS `haystack.includes(needle)`. -/
def strIncludes (haystack needle : String) : Bool :=
  hasSub needle.data haystack.data

/-- Case-insensitive match of `pat` at the head of `l` (a literal pattern of a
regex with flag `i`). -/
def subAtCI : List Char → List Char → Bool
  | [], _ => true
  | _ :: _, [] => false
  | p :: ps, c :: cs => p.toLower == c.toLower && subAtCI ps cs

/-- One global, case-insensitive replace-with-empty of an ordered alternation
of literal patterns (JS `s.replace(new RegExp(p1|p2|.., 'gi'), '')`).  The
scan moves left to right; at each position the first matching alternative is
removed and scanning resumes after it.  `fuel` bounds the recursion; one
character of input is consumed per step, so `fuel = l.length` is exact. -/
def replaceAllCIFuel (pats : List (List Char)) : Nat → List Char → List Char
  | _, [] => []
  | 0, rest => rest
  | Nat.succ f, c :: cs =>
    match pats.find? (fun p => !p.isEmpty && subAtCI p (c :: cs)) with
    | some p => replaceAllCIFuel pats f (List.drop (p.length - 1) cs)
    | none => c :: replaceAllCIFuel pats f cs

/-- JS `s.replace(/p1|p2|../gi, '')` for literal alternatives. -/
def replaceAllCI (pats : List String) (s : String) : String :=
  String.mk (replaceAllCIFuel (pats.map String.data) s.data.length s.data)

/-- JS `s.toLowerCase()` (ASCII).  Defined over the character list so that it
evaluates inside the kernel. -/
def strToLower (s : String) : String :=
  String.mk (s.data.map Char.toLower)

/-- The whitespace characters trimmed by `trim`. -/
def isWSChar (c : Char) : Bool :=
  c == ' ' || c == '\t' || c == '\n' || c == '\r'

/-- JS `s.trim()`: strip whitespace from both ends. -/
def strTrim (s : String) : String :=
  String.mk (((s.data.dropWhile isWSChar).reverse.dropWhile isWSChar).reverse)

/-- JS `s.startsWith(p)`. -/
def startsWithStr (s p : String) : Bool :=
  subAt p.data s.data

/-- JS `s.endsWith(p)`. -/
def endsWithStr (s p : String) : Bool :=
  subAt p.data.reverse s.data.reverse

/-! ## Trigger / command classifier (from `index.ts`, `message_create` handler) -/

/-- The `bot` section of the configuration (`config/config.ts`,
`DEFAULT_CONFIG.bot`). -/
structure BotConfig where
  triggers : List String
  ignoreLoopEmoji : String
  deriving Repr, DecidableEq

/-- The default configuration: `triggers: ["@golem", "@g"]`,
`ignoreLoopEmoji: "🗿"`. -/
def defaultBotConfig : BotConfig :=
  { triggers := ["@golem", "@g"], ignoreLoopEmoji := "🗿" }

/-- Message kind (`whatsapp-web.js` `Message.type`). -/
inductive MsgType where
  | chat
  | image
  | audio
  | ptt
  | document
  | other
  deriving Repr, DecidableEq

/-- The fields of a transport message read by the pipeline.  `timestamp` is in
seconds (the code multiplies by 1000); `0` stands for an absent timestamp
(JS falsy). -/
structure Msg where
  id : String
  fromMe : Bool
  body : String
  timestamp : Int
  type : MsgType
  hasMedia : Bool
  hasQuotedMsg : Bool
  deriving Repr, DecidableEq

/-- Outcome of the trigger / command / loop-prevention steps of the
`message_create` handler (steps 0-3 of `index.ts`). -/
inductive Classified where
  | ignoreLoop
  | helpReply
  | ignoreUntriggered
  | proceed (cleanBody : String) (isExplicitTranscription : Bool)
  deriving Repr, DecidableEq

/-- `index.ts` step 3: clean input.
`body.replace(new RegExp(triggers.join('|'), 'gi'), '')
     .replace(/@transcribe/gi, '').replace(/@t/gi, '').trim()`. -/
def cleanBodyFull (triggers : List String) (body : String) : String :=
  let s1 := replaceAllCI triggers body
  let s2 := replaceAllCI ["@transcribe"] s1
  let s3 := replaceAllCI ["@t"] s2
  strTrim s3

/-- `isExplicitTranscription` of `index.ts`:
`body.startsWith("@transcribe") || body.startsWith("@t")`. -/
def isExplicitTranscriptionOf (body : String) : Bool :=
  startsWithStr body "@transcribe" || startsWithStr body "@t"

/-- Steps 0-3 of the `message_create` handler of `index.ts`: loop prevention
(the body contains the configured emoji), the help command, trigger
detection, and input cleaning with the explicit-transcription default body.
The loop check is the first thing evaluated and ignores the sender. -/
def classify (cfg : BotConfig) (msg : Msg) : Classified :=
  if strIncludes msg.body cfg.ignoreLoopEmoji then .ignoreLoop
  else
    let bodyLower := strToLower msg.body
    let isTriggered := cfg.triggers.any (fun t => strIncludes bodyLower t) ||
      isExplicitTranscriptionOf msg.body
    if bodyLower == "@g help" || bodyLower == "@golem help" then .helpReply
    else if !isTriggered then .ignoreUntriggered
    else
      let isExp := isExplicitTranscriptionOf msg.body
      let c0 := cleanBodyFull cfg.triggers msg.body
      let c1 := if isExp && c0.length == 0 then "Transcribe this audio" else c0
      .proceed c1 isExp

/-! ## Rate limiter (`services/rateLimiter.ts`) -/

/-- `RateLimiter` constructor: `windowMs = windowHour * 60 * 60 * 1000`. -/
def windowMsOf (windowHours : Int) : Int :=
  windowHours * 60 * 60 * 1000

/-- `RateLimiter.canRequest` for one sender.  The state is that sender's
recorded timestamp list; the result is the boolean decision and the state
after the call.  Timestamps older than the window are pruned; if fewer than
`limit` remain, `now` is appended and recorded; otherwise the call is denied
and the stored state is left untouched (the pruned list is discarded). -/
def canRequest (limit : Nat) (windowMs : Int) (now : Int) (state : List Int) :
    Bool × List Int :=
  let valid := state.filter (fun ts => now - ts < windowMs)
  if valid.length ≥ limit then (false, state)
  else (true, valid ++ [now])

/-- Run a sequence of `canRequest` calls, threading the per-sender state, and
collect the decisions. -/
def admitRun (limit : Nat) (windowMs : Int) : List Int → List Int →
    List Bool × List Int
  | [], s => ([], s)
  | t :: ts, s =>
    let r := canRequest limit windowMs t s
    let rest := admitRun limit windowMs ts r.2
    (r.1 :: rest.1, rest.2)

/-! ## Planner output and response parsing (`agents/planner.ts`) -/

/-- One requested time range, as produced by the planner as JSON
(`{start: string|null, end: string|null}`).  The `end` field is called
`end_` because `end` is a Lean keyword. -/
structure TimeRange where
  start : Option String
  end_ : Option String
  deriving Repr, DecidableEq

/-- `PlannerOutput` of the current `agents/planner.ts` (`time_ranges` array,
`has_reply`). -/
structure PlannerOutput where
  target_model : String
  is_self_reflection : Bool
  is_abuse : Bool
  needs_image : Bool
  needs_audio : Bool
  has_reply : Bool
  time_ranges : List TimeRange
  reasoning : String
  deriving Repr, DecidableEq

/-- `PlannerOutput` of the legacy `agents/planner.ts` (`context_needed`,
single optional `time_range`); this is the shape consumed by the
`gatherContext` pipeline of `index.ts`. -/
structure PlannerOutputLegacy where
  target_model : String
  is_self_reflection : Bool
  is_abuse : Bool
  needs_image : Bool
  needs_audio : Bool
  context_needed : Bool
  time_range : Option TimeRange
  reasoning : String
  deriving Repr, DecidableEq

/-- The fields the current planner reads off the object returned by
`JSON.parse`.  `Option` marks fields whose JS truthiness (or
`Array.isArray`) test distinguishes present from absent/falsy; boolean
fields are stored as the truthiness `!!plan.x` of the raw value. -/
structure RawPlanFields where
  target_model : Option String
  is_self_reflection : Bool
  is_abuse : Bool
  needs_image : Bool
  needs_audio : Bool
  has_reply : Bool
  time_ranges : Option (List TimeRange)
  reasoning : Option String
  deriving Repr, DecidableEq

/-- The fields the legacy planner reads off the parsed object.
`context_needed` distinguishes `undefined` (`none`) from a present boolean,
matching `plan.context_needed !== undefined ? plan.context_needed : true`. -/
structure RawPlanFieldsLegacy where
  target_model : Option String
  is_self_reflection : Bool
  is_abuse : Bool
  needs_image : Bool
  needs_audio : Bool
  context_needed : Option Bool
  time_range : Option TimeRange
  reasoning : Option String
  deriving Repr, DecidableEq

/-- JS `plan.field || defaultString`: an absent or empty (falsy) string falls
back to the default. -/
def jsOrDefaultStr (v : Option String) (d : String) : String :=
  match v with
  | some s => if s == "" then d else s
  | none => d

/-- Stripping of markdown code fences before `JSON.parse`:
`raw.replace(/```json/g, '').replace(/```/g, '').trim()`. -/
def cleanJsonText (raw : String) : String :=
  strTrim ((raw.replace "```json" "").replace "```" "")

/-- The pure part of the current `PlannerAgent.plan`: fence-stripping,
`JSON.parse` (modelled as the black-box `jsonParse`, `none` on a parse
error), per-field defaulting on success, and the fixed fallback plan on
parse failure.  Note the fallback requests `time_ranges: [{start: null,
end: null}]` ("Default to recent history on error"), not an empty array. -/
def planParse (jsonParse : String → Option RawPlanFields) (raw : String) :
    PlannerOutput :=
  match jsonParse (cleanJsonText raw) with
  | some p =>
    { target_model := jsOrDefaultStr p.target_model "fast"
      is_self_reflection := p.is_self_reflection
      is_abuse := p.is_abuse
      needs_image := p.needs_image
      needs_audio := p.needs_audio
      has_reply := p.has_reply
      time_ranges := p.time_ranges.getD []
      reasoning := jsOrDefaultStr p.reasoning "No reasoning provided" }
  | none =>
    { target_model := "fast"
      is_self_reflection := false
      is_abuse := false
      needs_image := false
      needs_audio := false
      has_reply := false
      time_ranges := [{ start := none, end_ := none }]
      reasoning := "Fallback due to parse error" }

/-- The pure part of the legacy `PlannerAgent.plan`.  On parse failure the
fallback sets `context_needed: true` and `time_range: null`; on success
`context_needed` defaults to `true` when the field is `undefined`. -/
def planParseLegacy (jsonParse : String → Option RawPlanFieldsLegacy)
    (raw : String) : PlannerOutputLegacy :=
  match jsonParse (cleanJsonText raw) with
  | some p =>
    { target_model := jsOrDefaultStr p.target_model "fast"
      is_self_reflection := p.is_self_reflection
      is_abuse := p.is_abuse
      needs_image := p.needs_image
      needs_audio := p.needs_audio
      context_needed := p.context_needed.getD true
      time_range := p.time_range
      reasoning := jsOrDefaultStr p.reasoning "No reasoning provided" }
  | none =>
    { target_model := "fast"
      is_self_reflection := false
      is_abuse := false
      needs_image := false
      needs_audio := false
      context_needed := true
      time_range := none
      reasoning := "Fallback due to parse error" }

/-! ## Audio transcription cache (`services/audioService.ts`) -/

/-- Result of one `AudioService.transcribe` call: the returned text (or the
propagated error), whether the transcription API was invoked, and the cache
after the call. -/
structure TranscribeOutcome where
  result : Except Unit String
  invoked : Bool
  cache : List (String × String)

/-- JS object property overwrite `cache[mediaId] = text`. -/
def cacheSet (cache : List (String × String)) (k v : String) :
    List (String × String) :=
  (k, v) :: cache.filter (fun p => !(p.1 == k))

/-- `AudioService.transcribe(mediaId, buffer)`.  The cache check is
`if (this.cache[mediaId])` — JS truthiness, so a cached *empty* string is
treated as a miss and the API is invoked again.  On a miss the black-box
API result `api` is awaited; on success the text is stored under `mediaId`
and returned, on failure the error is rethrown and the cache unchanged. -/
def transcribe (api : Except Unit String) (cache : List (String × String))
    (mediaId : String) : TranscribeOutcome :=
  let hit :=
    match List.lookup mediaId cache with
    | some t => if t == "" then none else some t
    | none => none
  match hit with
  | some t => { result := .ok t, invoked := false, cache := cache }
  | none =>
    match api with
    | .ok text =>
      { result := .ok text, invoked := true, cache := cacheSet cache mediaId text }
    | .error e => { result := .error e, invoked := true, cache := cache }

/-! ## Context units and the environment of external capabilities -/

/-- Speaker attribution of a context unit (`AIMessage` vs `HumanMessage`). -/
inductive Role where
  | human
  | ai
  deriving Repr, DecidableEq

/-- Content of a context unit: plain text, or a multimodal pair of caption
text and a `data:` URL (image or PDF bytes). -/
inductive Content where
  | text (s : String)
  | multimodal (caption : String) (dataUrl : String)
  deriving Repr, DecidableEq

/-- Which assembly step of `gatherContext` produced a unit.  `media` marks
the unit pushed by `handleCurrentMessageMedia` (the `[AUDIO TRANSCRIPTION]`
unit of the current/quoted message), `history` one pushed by
`processHistoryMessage`, and `query` the single final
`[CURRENT_QUERY]` unit. -/
inductive UnitKind where
  | media
  | history
  | query
  deriving Repr, DecidableEq

/-- One element of the `contextMessages` array handed to the executor,
annotated with the producing step (`kind`) and the id of the source message
it was built from (`srcId`). -/
structure CtxUnit where
  role : Role
  content : Content
  kind : UnitKind
  srcId : Option String
  deriving Repr, DecidableEq

/-- A downloaded media payload (`downloadMedia()` result): base64 data and
mime type. -/
structure Media where
  data : String
  mimetype : String
  deriving Repr, DecidableEq

/-- The external capabilities consumed by one run of the pipeline, plus the
transport data it fetches: the quoted message (`getQuotedMessage`, used only
when `hasQuotedMsg`), the recent-history page (`chat.fetchMessages`), media
download and transcription keyed by message id (both may throw), sender-name
resolution, the owner name, and the `Date` black boxes (ISO formatting,
parsing, `setHours(0,0,0,0)`, `Date.now()` in milliseconds). -/
structure Env where
  quoted : Msg
  recent : List Msg
  download : String → Except Unit (Option Media)
  transcribeText : String → Except Unit String
  senderName : Msg → String
  ownerName : String
  isoString : Int → String
  dateParse : String → Int
  startOfDay : Int → Int
  nowMs : Int

/-! ## Current/quoted-message media normalization
(`handleCurrentMessageMedia`, step 5a/5c of `index.ts`) -/

/-- Result of the current-message media step: the units it pushed onto
`contextMessages`, the (possibly replaced) final `[CURRENT_QUERY]` content,
and the ids of the messages whose media it downloaded. -/
structure CurrentMediaResult where
  units : List CtxUnit
  finalContent : Content
  downloads : List String
  deriving Repr, DecidableEq

/-- The body of `handleCurrentMessageMedia` after the target message has been
resolved (`targetMsg`): audio is downloaded and transcribed when the plan or
the request asks for it (the transcription unit is pushed; download and
transcription failures propagate — there is no try/catch on this path); a
`.pdf` document or, when `plan.needs_image`, an image replaces the final
query content with a multimodal unit. -/
def currentMediaOn (env : Env) (targetMsg : Msg) (plan : PlannerOutputLegacy)
    (cleanBody : String) (isExplicitTranscription : Bool) :
    Except Unit CurrentMediaResult :=
  let base : CurrentMediaResult :=
    { units := [], finalContent := .text ("[CURRENT_QUERY] " ++ cleanBody),
      downloads := [] }
  if !targetMsg.hasMedia then .ok base
  else if targetMsg.type == .audio || targetMsg.type == .ptt then
    if plan.needs_audio || isExplicitTranscription ||
        strIncludes cleanBody "transcribe" || strIncludes cleanBody "listen" then
      match env.download targetMsg.id with
      | .error e => .error e
      | .ok none => .ok { base with downloads := [targetMsg.id] }
      | .ok (some _) =>
        match env.transcribeText targetMsg.id with
        | .error e => .error e
        | .ok audioText =>
          .ok { units := [{ role := .human,
                            content := .text ("[AUDIO TRANSCRIPTION]: " ++ audioText),
                            kind := .media, srcId := some targetMsg.id }],
                finalContent := base.finalContent,
                downloads := [targetMsg.id] }
    else .ok base
  else if targetMsg.type == .document && endsWithStr targetMsg.body ".pdf" then
    match env.download targetMsg.id with
    | .error e => .error e
    | .ok none => .ok { base with downloads := [targetMsg.id] }
    | .ok (some m) =>
      if m.mimetype == "application/pdf" then
        .ok { units := [],
              finalContent := .multimodal cleanBody
                ("data:" ++ m.mimetype ++ ";base64," ++ m.data),
              downloads := [targetMsg.id] }
      else .ok { base with downloads := [targetMsg.id] }
  else if targetMsg.type == .image && plan.needs_image then
    match env.download targetMsg.id with
    | .error e => .error e
    | .ok none => .ok { base with downloads := [targetMsg.id] }
    | .ok (some m) =>
      .ok { units := [],
            finalContent := .multimodal cleanBody
              ("data:" ++ m.mimetype ++ ";base64," ++ m.data),
            downloads := [targetMsg.id] }
  else .ok base

/-- `handleCurrentMessageMedia`: when the inbound message is a reply the
quoted message wholly replaces it as the media target
(`targetMsg = await message.getQuotedMessage()`). -/
def handleCurrentMessageMedia (env : Env) (msg : Msg)
    (plan : PlannerOutputLegacy) (cleanBody : String)
    (isExplicitTranscription : Bool) : Except Unit CurrentMediaResult :=
  let targetMsg := if msg.hasQuotedMsg then env.quoted else msg
  currentMediaOn env targetMsg plan cleanBody isExplicitTranscription

/-! ## Historical context (`handleHistoricalContext`, `processHistoryMessage`) -/

/-- `msg.body.replace(/🗿/g, '').trim()` — the body cleaning applied to
history messages. -/
def stripMoaiTrim (body : String) : String :=
  strTrim (replaceAllCI ["🗿"] body)

/-- The audio part of `processHistoryMessage`: inside a try/catch, download
and transcribe; a falsy media result adds nothing, a successful
transcription adds `\n[Audio Transcription]: <text>`, and any thrown error
is caught and adds `\n[Audio Transcription Failed]`. -/
def historyAudioNote (env : Env) (msg : Msg) : String :=
  if msg.hasMedia && (msg.type == .audio || msg.type == .ptt) then
    match env.download msg.id with
    | .error _ => "\n[Audio Transcription Failed]"
    | .ok none => ""
    | .ok (some _) =>
      match env.transcribeText msg.id with
      | .error _ => "\n[Audio Transcription Failed]"
      | .ok t => "\n[Audio Transcription]: " ++ t
  else ""

/-- The image part of `processHistoryMessage`: inside a try/catch, download;
a thrown error is caught and adds `\n[Image Download Failed]`; a falsy media
result yields no real image.  Returns the media (when a real image was
obtained) and the annotation added by the catch. -/
def historyImageFetch (env : Env) (msg : Msg) : Option Media × String :=
  if msg.hasMedia && msg.type == .image then
    match env.download msg.id with
    | .error _ => (none, "\n[Image Download Failed]")
    | .ok none => (none, "")
    | .ok (some m) => (some m, "")
  else (none, "")

/-- The content built by `processHistoryMessage` for one in-window history
message: a multimodal unit when a real image was downloaded, otherwise a
text unit `[sender] (iso): body` followed by the accumulated annotations
(audio note, image-failure note, and `\n[IMAGE OMITTED: Placeholder]` for an
image message without a real image). -/
def processHistoryContent (env : Env) (msg : Msg) (msgDateMs : Int) : Content :=
  let additional := historyAudioNote env msg
  let bodyClean := stripMoaiTrim msg.body
  let senderNameHistory := if msg.fromMe then env.ownerName else env.senderName msg
  let fetched := historyImageFetch env msg
  match fetched.1 with
  | some m =>
    .multimodal
      ("[" ++ senderNameHistory ++ "] (" ++ env.isoString msgDateMs ++
        "): [IMAGE SENT] " ++ bodyClean ++ additional)
      ("data:" ++ m.mimetype ++ ";base64," ++ m.data)
  | none =>
    let additional2 := additional ++ fetched.2 ++
      (if msg.hasMedia && msg.type == .image then "\n[IMAGE OMITTED: Placeholder]"
       else "")
    .text ("[" ++ senderNameHistory ++ "] (" ++ env.isoString msgDateMs ++
      "): " ++ bodyClean ++ additional2)

/-- `processHistoryMessage`: one context unit per in-window history message,
`AIMessage` when `msg.fromMe` else `HumanMessage`.  All media failures on
this path are caught and turned into annotations, so the function is total. -/
def processHistoryMessage (env : Env) (msg : Msg) (msgDateMs : Int) : CtxUnit :=
  { role := if msg.fromMe then .ai else .human
    content := processHistoryContent env msg msgDateMs
    kind := .history
    srcId := some msg.id }

/-- The "Last Active Day" fallback: scan the fetched page from the end for
the last message with a truthy timestamp older than `now - 5000` ms, and
take midnight of that day (`setHours(0,0,0,0)`); with no such message,
midnight of today. -/
def lastActiveDayStart (env : Env) (recentMessages : List Msg) : Int :=
  match recentMessages.reverse.find?
      (fun m => m.timestamp != 0 && m.timestamp * 1000 < env.nowMs - 5000) with
  | some m => env.startOfDay (m.timestamp * 1000)
  | none => env.startOfDay env.nowMs

/-- The time window of `handleHistoricalContext`: when the plan carries a
time range with a truthy `start`, parse it (and the `end`, defaulting to
now); otherwise fall back to the Last Active Day window ending now. -/
def historyWindow (env : Env) (recentMessages : List Msg)
    (plan : PlannerOutputLegacy) : Int × Int :=
  match plan.time_range with
  | some tr =>
    match tr.start with
    | some s =>
      if s == "" then (lastActiveDayStart env recentMessages, env.nowMs)
      else
        (env.dateParse s,
         match tr.end_ with
         | some e => if e == "" then env.nowMs else env.dateParse e
         | none => env.nowMs)
    | none => (lastActiveDayStart env recentMessages, env.nowMs)
  | none => (lastActiveDayStart env recentMessages, env.nowMs)

/-- `handleHistoricalContext`: fetch a page of recent messages (given here as
`recentMessages`), resolve the time window, and process every fetched
message whose date (`timestamp * 1000`) falls inside `[start, end]`
inclusive, in fetch order. -/
def handleHistoricalContext (env : Env) (recentMessages : List Msg)
    (plan : PlannerOutputLegacy) : List CtxUnit :=
  let window := historyWindow env recentMessages plan
  (recentMessages.filter
      (fun m => window.1 ≤ m.timestamp * 1000 && m.timestamp * 1000 ≤ window.2)).map
    (fun m => processHistoryMessage env m (m.timestamp * 1000))

/-! ## Context assembly (`gatherContext`) -/

/-- `gatherContext`: current/quoted-message media first (its units are pushed
before anything else; its failures propagate), then the historical window if
`plan.context_needed`, then exactly one final `HumanMessage` holding the
current query content. -/
def gatherContext (env : Env) (msg : Msg) (plan : PlannerOutputLegacy)
    (cleanBody : String) (isExplicitTranscription : Bool) :
    Except Unit (List CtxUnit) :=
  match handleCurrentMessageMedia env msg plan cleanBody isExplicitTranscription with
  | .error e => .error e
  | .ok cur =>
    let hist := if plan.context_needed then handleHistoricalContext env env.recent plan
      else []
    .ok (cur.units ++ hist ++
      [{ role := .human, content := cur.finalContent, kind := .query,
         srcId := some msg.id }])

/-! ## Helpers for stating the claims -/

/-- The text of a unit (the caption for a multimodal unit). -/
def unitText (u : CtxUnit) : String :=
  match u.content with
  | .text s => s
  | .multimodal caption _ => caption

/-- Whether a pipeline run completed without a thrown error. -/
def isOkB {α : Type} (r : Except Unit α) : Bool :=
  match r with
  | .ok _ => true
  | .error _ => false

/-- The assembled context of a completed run (empty on a thrown error). -/
def okOr (r : Except Unit (List CtxUnit)) : List CtxUnit :=
  match r with
  | .ok l => l
  | .error _ => []

/-- A unit built from the quoted message (its `srcId` is the quoted id) other
than the final query unit.  In this code base the only such unit is the
`[AUDIO TRANSCRIPTION]` unit pushed by `handleCurrentMessageMedia`; no
separate quoted-message emphasis unit is ever produced. -/
def isQuotedDerived (qid : String) (u : CtxUnit) : Bool :=
  u.srcId == some qid && !(u.kind == UnitKind.query)

/-- Every historical unit precedes every quoted-message-derived unit: after
any quoted-derived unit no history unit occurs. -/
def noHistoryAfterQuotedDerived (qid : String) : List CtxUnit → Bool
  | [] => true
  | u :: rest =>
    (!(isQuotedDerived qid u) || rest.all (fun v => !(v.kind == UnitKind.history))) &&
      noHistoryAfterQuotedDerived qid rest

/-- The context ends with exactly one unit of kind `query`. -/
def endsWithOneQuery (ctx : List CtxUnit) : Bool :=
  (ctx.filter (fun u => u.kind == UnitKind.query)).length == 1 &&
    (match ctx.getLast? with
     | some u => u.kind == UnitKind.query
     | none => false)

/-- Claim C1 as stated, on the outcome of one `gatherContext` run with quoted
message id `qid`: all historical units precede the quoted-message-derived
unit, and the sequence ends with exactly one current-query unit. -/
def claimC1Check (r : Except Unit (List CtxUnit)) (qid : String) : Bool :=
  match r with
  | .ok ctx => noHistoryAfterQuotedDerived qid ctx && endsWithOneQuery ctx
  | .error _ => true

/-! ## A concrete run: a reply to a voice note that also lies in the history
window.  Used to test the ordering and attribution claims. -/

/-- A quoted voice-note message. -/
def qMsg1 : Msg :=
  { id := "q1", fromMe := false, body := "voice note", timestamp := 865000,
    type := .ptt, hasMedia := true, hasQuotedMsg := false }

/-- The inbound message: a reply (`hasQuotedMsg`) asking the bot to listen. -/
def curMsg1 : Msg :=
  { id := "m1", fromMe := false, body := "@g listen", timestamp := 869999,
    type := .chat, hasMedia := false, hasQuotedMsg := true }

/-- Environment for the run: the history page contains exactly the quoted
voice note; download and transcription succeed. -/
def env1 : Env :=
  { quoted := qMsg1
    recent := [qMsg1]
    download := fun _ => .ok (some { data := "QUJD", mimetype := "audio/ogg" })
    transcribeText := fun _ => .ok "hello world"
    senderName := fun _ => "alice"
    ownerName := "Evyatar"
    isoString := fun _ => "2025-01-01T00:00:00.000Z"
    dateParse := fun _ => 0
    startOfDay := fun t => t - t % 86400000
    nowMs := 870000000 }

/-- A plan that wants audio and history, with no explicit time range. -/
def plan1 : PlannerOutputLegacy :=
  { target_model := "fast", is_self_reflection := false, is_abuse := false,
    needs_image := false, needs_audio := true, context_needed := true,
    time_range := none, reasoning := "wants audio and history" }

/-- The assembled context of the run. -/
def run1 : Except Unit (List CtxUnit) :=
  gatherContext env1 curMsg1 plan1 "listen" false

/-! ## A concrete run for the focused-mode claim: empty time range but
`context_needed` true. -/

/-- A plain text history message. -/
def hMsg4 : Msg :=
  { id := "h4", fromMe := false, body := "hello there", timestamp := 865000,
    type := .chat, hasMedia := false, hasQuotedMsg := false }

/-- Environment whose history page holds one plain message. -/
def env4 : Env :=
  { quoted := hMsg4
    recent := [hMsg4]
    download := fun _ => .ok none
    transcribeText := fun _ => .ok ""
    senderName := fun _ => "bob"
    ownerName := "Evyatar"
    isoString := fun _ => "2025-01-01T00:00:00.000Z"
    dateParse := fun _ => 0
    startOfDay := fun t => t - t % 86400000
    nowMs := 870000000 }

/-- A plan requesting history (`context_needed`) with no time range at all. -/
def plan4 : PlannerOutputLegacy :=
  { target_model := "fast", is_self_reflection := false, is_abuse := false,
    needs_image := false, needs_audio := false, context_needed := true,
    time_range := none, reasoning := "no range requested" }

/-! ## A concrete run in which transcription of the quoted voice note
throws. -/

/-- Environment identical to `env1` except that the transcription capability
fails on every call. -/
def env7 : Env :=
  { quoted := qMsg1
    recent := [qMsg1]
    download := fun _ => .ok (some { data := "QUJD", mimetype := "audio/ogg" })
    transcribeText := fun _ => .error ()
    senderName := fun _ => "alice"
    ownerName := "Evyatar"
    isoString := fun _ => "2025-01-01T00:00:00.000Z"
    dateParse := fun _ => 0
    startOfDay := fun t => t - t % 86400000
    nowMs := 870000000 }

/-- The same reply-to-voice-note run as `run1`, under the failing
transcriber. -/
def run7 : Except Unit (List CtxUnit) :=
  gatherContext env7 curMsg1 plan1 "listen" false

/-- An inbound message that is neither a reply nor carries media. -/
def plainMsg7 : Msg :=
  { id := "m7", fromMe := false, body := "@g what happened", timestamp := 869999,
    type := .chat, hasMedia := false, hasQuotedMsg := false }

/-- `plan4` with `context_needed` off: the only plan shape under which the
pipeline adds no history. -/
def plan4b : PlannerOutputLegacy :=
  { plan4 with context_needed := false }

/-- A message from the bot's own account whose body contains both a trigger
and the loop marker. -/
def loopMsg6 : Msg :=
  { id := "m6", fromMe := true, body := "@golem hello 🗿 world", timestamp := 1,
    type := .chat, hasMedia := false, hasQuotedMsg := false }

/-- An inbound voice note whose body is the bare short transcription
trigger. -/
def msg9a : Msg :=
  { id := "m9a", fromMe := false, body := "@t", timestamp := 1,
    type := .ptt, hasMedia := true, hasQuotedMsg := false }

/-- An inbound voice note whose body is the bare long transcription
trigger. -/
def msg9b : Msg :=
  { id := "m9b", fromMe := false, body := "@transcribe", timestamp := 1,
    type := .ptt, hasMedia := true, hasQuotedMsg := false }

/-- The `CurrentMediaResult` of the reply-to-voice-note run (`run1`). -/
def cur1 : CurrentMediaResult :=
  match handleCurrentMessageMedia env1 curMsg1 plan1 "listen" false with
  | .ok r => r
  | .error _ => { units := [], finalContent := .text "", downloads := [] }

/-! ## General lemmas -/

theorem subAt_append_self : ∀ (n r : List Char), subAt n (n ++ r) = true
  | [], _ => rfl
  | c :: cs, r => by simp [subAt, subAt_append_self cs r]

theorem hasSub_self_append (n r : List Char) : hasSub n (n ++ r) = true := by
  cases n with
  | nil => cases r <;> simp [hasSub, subAt]
  | cons c cs => simp [hasSub, subAt, subAt_append_self cs r]

theorem hasSub_cons_of (n : List Char) (c : Char) (cs : List Char)
    (h : hasSub n cs = true) : hasSub n (c :: cs) = true := by
  simp [hasSub, h]

theorem hasSub_append_left (n : List Char) :
    ∀ (xs ys : List Char), hasSub n ys = true → hasSub n (xs ++ ys) = true
  | [], _, h => h
  | x :: xs, ys, h => by
    simpa using hasSub_cons_of n x (xs ++ ys) (hasSub_append_left n xs ys h)

/-- The failure annotation added by `processHistoryMessage` is found anywhere
behind a prefix and in front of further annotations. -/
theorem strIncludes_failTag_middle (pre tail1 tail2 : String) :
    strIncludes (pre ++ (("\n[Audio Transcription Failed]" ++ tail1) ++ tail2))
      "[Audio Transcription Failed]" = true := by
  unfold strIncludes
  simp only [String.data_append, List.append_assoc]
  apply hasSub_append_left
  exact hasSub_cons_of _ _ _ (hasSub_self_append _ _)

/-- Every download and every unit of the current-message media step refers to
the resolved target message, and its units are all of kind `media`. -/
theorem currentMediaOn_spec (env : Env) (t : Msg) (plan : PlannerOutputLegacy)
    (cb : String) (ie : Bool) (r : CurrentMediaResult)
    (h : currentMediaOn env t plan cb ie = .ok r) :
    (∀ d ∈ r.downloads, d = t.id) ∧
    (∀ u ∈ r.units, u.srcId = some t.id ∧ u.kind = UnitKind.media) := by
  unfold currentMediaOn at h
  repeat' split at h
  all_goals cases h
  all_goals simp_all

/-- Units produced by `handleHistoricalContext` all have kind `history` and
carry the id of the history message they were built from. -/
theorem handleHistoricalContext_mem (env : Env) (recent : List Msg)
    (plan : PlannerOutputLegacy) (u : CtxUnit)
    (hu : u ∈ handleHistoricalContext env recent plan) :
    u.kind = UnitKind.history ∧ ∃ m ∈ recent, u.srcId = some m.id := by
  have he : handleHistoricalContext env recent plan =
      (recent.filter
          (fun m => (historyWindow env recent plan).1 ≤ m.timestamp * 1000 &&
            m.timestamp * 1000 ≤ (historyWindow env recent plan).2)).map
        (fun m => processHistoryMessage env m (m.timestamp * 1000)) := rfl
  rw [he] at hu
  rcases List.mem_map.mp hu with ⟨m, hm, rfl⟩
  exact ⟨rfl, m, List.mem_of_mem_filter hm, rfl⟩

/-- `gatherContext` produces exactly the current-media units, then the
historical units, then the final query unit. -/
theorem gatherContext_shape (env : Env) (msg : Msg) (plan : PlannerOutputLegacy)
    (cb : String) (ie : Bool) (ctx : List CtxUnit)
    (h : gatherContext env msg plan cb ie = .ok ctx) :
    ∃ cur : CurrentMediaResult,
      handleCurrentMessageMedia env msg plan cb ie = .ok cur ∧
      ctx = cur.units ++
        (if plan.context_needed then handleHistoricalContext env env.recent plan
         else []) ++
        [{ role := .human, content := cur.finalContent, kind := .query,
           srcId := some msg.id }] := by
  unfold gatherContext at h
  cases hc : handleCurrentMessageMedia env msg plan cb ie with
  | error e => rw [hc] at h; cases h
  | ok cur => rw [hc] at h; cases h; exact ⟨cur, rfl, rfl⟩

/-- While every pending call lies within the window of every recorded or
pending timestamp and capacity suffices, each `canRequest` admits and
appends its timestamp. -/
theorem admitRun_all_ok (limit : Nat) (W : Int) :
    ∀ (ts s : List Int),
    (∀ x ∈ s ++ ts, ∀ y ∈ ts, y - x < W) →
    s.length + ts.length ≤ limit →
    admitRun limit W ts s = (List.replicate ts.length true, s ++ ts)
  | [], s, _, _ => by simp [admitRun]
  | t :: ts, s, H, hlen => by
    have hkeep : s.filter (fun x => decide (t - x < W)) = s :=
      List.filter_eq_self.mpr fun a ha =>
        decide_eq_true (H a (List.mem_append_left _ ha) t (List.mem_cons_self t ts))
    have hlt : ¬ s.length ≥ limit := by
      simp only [List.length_cons] at hlen
      omega
    have hstep : canRequest limit W t s = (true, s ++ [t]) := by
      unfold canRequest
      rw [hkeep, if_neg hlt]
    have H' : ∀ x ∈ (s ++ [t]) ++ ts, ∀ y ∈ ts, y - x < W := by
      intro x hx y hy
      refine H x ?_ y (List.mem_cons_of_mem t hy)
      rw [List.append_assoc, List.singleton_append] at hx
      exact hx
    have hlen' : (s ++ [t]).length + ts.length ≤ limit := by
      simp only [List.length_append, List.length_cons, List.length_nil] at hlen ⊢
      omega
    have hrec := admitRun_all_ok limit W ts (s ++ [t]) H' hlen'
    unfold admitRun
    rw [hstep]
    simp only [hrec, List.replicate_succ, List.length_cons]
    rw [List.append_assoc, List.singleton_append]

/-! ## Claim theorems -/

/-- C5: for a sender under a rate limiter with limit `N` and window `W`, any
`N` consecutive `canRequest` calls whose times all lie within one window of
each other succeed (starting from an empty record), the `(N+1)`-th call
still within the window of every recorded timestamp is denied without
mutating the stored state, and once time has advanced past the window of
every recorded timestamp a further call succeeds again. -/
theorem claim5_rateLimiter_window (N : Nat) (hN : 0 < N) (W : Int)
    (calls : List Int) (hlen : calls.length = N)
    (hwin : ∀ a ∈ calls, ∀ b ∈ calls, b - a < W)
    (u v : Int)
    (hu : ∀ a ∈ calls, u - a < W)
    (hv : ∀ a ∈ calls, W ≤ v - a) :
    admitRun N W calls [] = (List.replicate N true, calls) ∧
    canRequest N W u calls = (false, calls) ∧
    (canRequest N W v calls).1 = true := by
  refine ⟨?_, ?_, ?_⟩
  · have h := admitRun_all_ok N W calls [] (by simpa using hwin) (by simp [hlen])
    simpa [hlen] using h
  · have hkeep : calls.filter (fun x => decide (u - x < W)) = calls :=
      List.filter_eq_self.mpr fun a ha => decide_eq_true (hu a ha)
    unfold canRequest
    rw [hkeep, if_pos (by rw [hlen])]
  · have hdrop : calls.filter (fun x => decide (v - x < W)) = [] :=
      List.filter_eq_nil_iff.mpr fun a ha => by
        simp only [decide_eq_true_eq]
        exact not_lt.mpr (hv a ha)
    unfold canRequest
    rw [hdrop, if_neg (by simp only [List.length_nil]; omega)]

/-- Witness for C5 at the spec's example: limit 2, window 1 hour; calls at
t = 0 and t = 10 min succeed, a call at t = 20 min is denied, a call at
t = 70 min succeeds again. -/
theorem claim5_witness :
    admitRun 2 3600000 [0, 600000] [] = ([true, true], [0, 600000]) ∧
    canRequest 2 3600000 1200000 [0, 600000] = (false, [0, 600000]) ∧
    (canRequest 2 3600000 4200000 [0, 600000]).1 = true :=
  claim5_rateLimiter_window 2 (by decide) 3600000 [0, 600000] rfl
    (by decide) 1200000 4200000 (by decide) (by decide)

/-- C6: any inbound message whose body contains the configured
loop-prevention marker is classified `ignoreLoop` — for every sender
(`fromMe` included, since `classify` reads only the body) and before trigger
matching or the help command can fire. -/
theorem claim6_loop_before_triggers (cfg : BotConfig) (msg : Msg)
    (h : strIncludes msg.body cfg.ignoreLoopEmoji = true) :
    classify cfg msg = Classified.ignoreLoop := by
  simp [classify, h]

/-- Witness for C6: a message from the bot's own account whose body contains
both a trigger and the marker is still ignored. -/
theorem claim6_witness :
    strIncludes loopMsg6.body defaultBotConfig.ignoreLoopEmoji = true ∧
    loopMsg6.fromMe = true ∧
    strIncludes (strToLower loopMsg6.body) "@golem" = true ∧
    classify defaultBotConfig loopMsg6 = Classified.ignoreLoop :=
  ⟨by decide, rfl, by decide,
    claim6_loop_before_triggers defaultBotConfig loopMsg6 (by decide)⟩

/-- C9: a body consisting of the explicit-transcription trigger alone
(short form `"@t"` or long form `"@transcribe"`) is classified `proceed`
with cleaned body equal to the default instruction string
`"Transcribe this audio"`, which is not the empty string. -/
theorem claim9_explicit_transcription_default_body :
    classify defaultBotConfig msg9a = Classified.proceed "Transcribe this audio" true ∧
    classify defaultBotConfig msg9b = Classified.proceed "Transcribe this audio" true ∧
    "Transcribe this audio" ≠ "" := by
  decide

/-- C10: when the inbound message is a reply, the quoted message wholly
replaces it as the media-normalization target of
`handleCurrentMessageMedia`: every media download and every unit of that
step refers to the quoted message's id, never to the current message's own
media — whatever media the current message itself carries. -/
theorem claim10_quoted_replaces_target (env : Env) (msg : Msg)
    (plan : PlannerOutputLegacy) (cb : String) (ie : Bool)
    (r : CurrentMediaResult)
    (hq : msg.hasQuotedMsg = true)
    (h : handleCurrentMessageMedia env msg plan cb ie = .ok r) :
    (∀ d ∈ r.downloads, d = env.quoted.id) ∧
    (∀ u ∈ r.units, u.srcId = some env.quoted.id) := by
  unfold handleCurrentMessageMedia at h
  simp only [hq, if_true] at h
  have hs := currentMediaOn_spec env env.quoted plan cb ie r h
  exact ⟨hs.1, fun u hu => (hs.2 u hu).1⟩

/-- Witness for C10: in the reply-to-voice-note run everything the
current-media step touched belongs to the quoted message `q1`. -/
theorem claim10_witness :
    cur1.downloads.all (fun d => d == "q1") = true ∧
    cur1.units.all (fun u => u.srcId == some "q1") = true := by
  have h := claim10_quoted_replaces_target env1 curMsg1 plan1 "listen" false cur1
    rfl rfl
  constructor
  · exact List.all_eq_true.mpr fun d hd => by simpa using h.1 d hd
  · exact List.all_eq_true.mpr fun u hu => by simpa using h.2 u hu

/-- C1 counterexample: in a concrete run whose inbound message is a reply to
a voice note that also lies in the history window, the quoted-message-derived
unit (the `[AUDIO TRANSCRIPTION]` unit — the only unit the code ever builds
from the quoted message; no emphasis unit exists) comes *before* the
historical units, so the claimed ordering "historical units precede the
quoted-message unit" is false, even though the context does end with one
query unit. -/
theorem claim1_counterexample :
    curMsg1.hasQuotedMsg = true ∧
    claimC1Check run1 "q1" = false ∧
    (okOr run1).map (fun u => (u.kind, u.srcId)) =
      [(UnitKind.media, some "q1"), (UnitKind.history, some "q1"),
       (UnitKind.query, some "m1")] := by
  refine ⟨rfl, by decide, by decide⟩

/-- C1 (amended): every assembled context is the current/quoted-message media
units, then the historical units, then exactly one trailing current-query
unit — i.e. the quoted-message-derived transcription unit *precedes* the
history instead of following it, and no separate quoted-message emphasis
unit is produced. -/
theorem claim1_ordering_amended (env : Env) (msg : Msg)
    (plan : PlannerOutputLegacy) (cb : String) (ie : Bool) (ctx : List CtxUnit)
    (h : gatherContext env msg plan cb ie = .ok ctx) :
    ∃ a b fin, ctx = a ++ b ++ [fin] ∧
      (∀ u ∈ a, u.kind = UnitKind.media) ∧
      (∀ u ∈ b, u.kind = UnitKind.history) ∧
      fin.kind = UnitKind.query ∧
      (ctx.filter (fun u => u.kind == UnitKind.query)).length = 1 ∧
      ctx.getLast? = some fin := by
  obtain ⟨cur, hc, rfl⟩ := gatherContext_shape env msg plan cb ie ctx h
  have hc' : currentMediaOn env (if msg.hasQuotedMsg then env.quoted else msg)
      plan cb ie = .ok cur := hc
  have hcur := currentMediaOn_spec env _ plan cb ie cur hc'
  have hb : ∀ u ∈ (if plan.context_needed then
      handleHistoricalContext env env.recent plan else []),
      u.kind = UnitKind.history := by
    split
    · intro u hu
      exact (handleHistoricalContext_mem env env.recent plan u hu).1
    · intro u hu
      simp at hu
  refine ⟨cur.units, _, _, rfl, fun u hu => (hcur.2 u hu).2, hb, rfl, ?_, ?_⟩
  · rw [List.filter_append, List.filter_append]
    have ha0 : cur.units.filter (fun u => u.kind == UnitKind.query) = [] :=
      List.filter_eq_nil_iff.mpr fun u hu => by
        rw [(hcur.2 u hu).2]
        decide
    have hb0 : ((if plan.context_needed then
        handleHistoricalContext env env.recent plan else []).filter
          (fun u => u.kind == UnitKind.query)) = [] :=
      List.filter_eq_nil_iff.mpr fun u hu => by
        rw [hb u hu]
        decide
    rw [ha0, hb0]
    rfl
  · simp [List.getLast?_append]

/-- Witness for the amended C1 on the concrete reply-to-voice-note run: the
assembled context holds exactly one query-kind unit and its last unit is the
query unit. -/
theorem claim1_witness :
    ((okOr run1).filter (fun u => u.kind == UnitKind.query)).length = 1 ∧
    (okOr run1).getLast?.map CtxUnit.kind = some UnitKind.query := by
  obtain ⟨a, b, fin, hctx, ha, hb, hfin, hcount, hlast⟩ :=
    claim1_ordering_amended env1 curMsg1 plan1 "listen" false (okOr run1) rfl
  exact ⟨hcount, by rw [hlast]; simp [hfin]⟩

/-- C2 counterexample: in the same concrete reply-to-voice-note run, the
assembled context contains *two* units attributable to the quoted message
`q1` — the `[AUDIO TRANSCRIPTION]` unit pushed by the current-media step and
the history unit for the very same message — so "no two units of an
assembled context represent the same source message id" is false.  (The
plan shape consumed by this pipeline carries at most a single `time_range`,
so the premise of two overlapping ranges cannot even arise.) -/
theorem claim2_counterexample :
    isOkB run1 = true ∧
    plan1.time_range = none ∧
    ((okOr run1).filterMap CtxUnit.srcId).count "q1" = 2 := by
  refine ⟨by decide, rfl, by decide⟩

/-- C2 (amended): within the *historical* units alone the invariant holds —
if the fetched history page has pairwise-distinct message ids, no two units
produced by `handleHistoricalContext` carry the same source message id (each
fetched message contributes at most one unit; there is only one time window,
so no cross-range duplication exists to deduplicate).  The current/quoted
media unit may still duplicate a history unit's source id, as the
counterexample shows. -/
theorem claim2_history_dedup_amended (env : Env) (recent : List Msg)
    (plan : PlannerOutputLegacy)
    (h : (recent.map Msg.id).Nodup) :
    ((handleHistoricalContext env recent plan).filterMap CtxUnit.srcId).Nodup := by
  have he : handleHistoricalContext env recent plan =
      (recent.filter
          (fun m => (historyWindow env recent plan).1 ≤ m.timestamp * 1000 &&
            m.timestamp * 1000 ≤ (historyWindow env recent plan).2)).map
        (fun m => processHistoryMessage env m (m.timestamp * 1000)) := rfl
  rw [he, List.filterMap_map]
  have hcomp : (CtxUnit.srcId ∘ fun m : Msg =>
      processHistoryMessage env m (m.timestamp * 1000)) = some ∘ Msg.id := rfl
  rw [hcomp, List.filterMap_eq_map]
  exact List.Nodup.sublist ((List.filter_sublist recent).map Msg.id) h

/-- Witness for the amended C2: a two-message history page with distinct ids
yields history units with pairwise-distinct source ids. -/
theorem claim2_witness :
    (([qMsg1, hMsg4].map Msg.id).Nodup) ∧
    ((handleHistoricalContext env1 [qMsg1, hMsg4] plan1).filterMap
      CtxUnit.srcId).Nodup :=
  ⟨by decide, claim2_history_dedup_amended env1 [qMsg1, hMsg4] plan1 (by decide)⟩

/-- C3 counterexample: feeding unparseable text to the current planner's
response handling returns, without raising, a plan with tier `fast` and all
media flags false — but its `time_ranges` is the singleton
`[{start: null, end: null}]` ("Default to recent history on error"), not the
empty sequence; the legacy planner likewise falls back to
`context_needed = true`, so history *is* requested. -/
theorem claim3_counterexample :
    (planParse (fun _ => none) "the model answered in prose").time_ranges =
      [{ start := none, end_ := none }] ∧
    (planParse (fun _ => none) "the model answered in prose").time_ranges ≠ [] ∧
    (planParseLegacy (fun _ => none) "the model answered in prose").context_needed
      = true := by
  refine ⟨rfl, by decide, rfl⟩

/-- C3 (amended): whenever `JSON.parse` fails on the fence-stripped planner
response, `plan` returns (without raising) the fixed fallback plan: tier
`fast`, every media/content flag false, `reasoning` the fixed fallback text —
and a *recent-history default* in place of empty time ranges: the current
planner returns `time_ranges = [{start: null, end: null}]`, the legacy one
`context_needed = true` with `time_range = null`. -/
theorem claim3_parse_fallback_amended (jp : String → Option RawPlanFields)
    (jpL : String → Option RawPlanFieldsLegacy) (raw : String)
    (h1 : jp (cleanJsonText raw) = none)
    (h2 : jpL (cleanJsonText raw) = none) :
    planParse jp raw =
      { target_model := "fast", is_self_reflection := false, is_abuse := false,
        needs_image := false, needs_audio := false, has_reply := false,
        time_ranges := [{ start := none, end_ := none }],
        reasoning := "Fallback due to parse error" } ∧
    planParseLegacy jpL raw =
      { target_model := "fast", is_self_reflection := false, is_abuse := false,
        needs_image := false, needs_audio := false, context_needed := true,
        time_range := none,
        reasoning := "Fallback due to parse error" } := by
  unfold planParse planParseLegacy
  rw [h1, h2]
  exact ⟨rfl, rfl⟩

/-- Witness for the amended C3 at a concrete unparseable response. -/
theorem claim3_witness :
    planParse (fun _ => none) "here is my answer in prose" =
      { target_model := "fast", is_self_reflection := false, is_abuse := false,
        needs_image := false, needs_audio := false, has_reply := false,
        time_ranges := [{ start := none, end_ := none }],
        reasoning := "Fallback due to parse error" } ∧
    planParseLegacy (fun _ => none) "here is my answer in prose" =
      { target_model := "fast", is_self_reflection := false, is_abuse := false,
        needs_image := false, needs_audio := false, context_needed := true,
        time_range := none,
        reasoning := "Fallback due to parse error" } :=
  claim3_parse_fallback_amended (fun _ => none) (fun _ => none)
    "here is my answer in prose" rfl rfl

/-- C4 counterexample: a plan with *no* time range at all (`time_range =
null`) but `context_needed = true` makes `handleHistoricalContext` return a
non-empty sequence — the code substitutes the "Last Active Day" window
instead of returning the empty sequence the claim (focused mode) expects. -/
theorem claim4_counterexample :
    plan4.time_range = none ∧
    handleHistoricalContext env4 [hMsg4] plan4 ≠ [] := by
  refine ⟨rfl, by decide⟩

/-- C4 (amended): the pipeline adds no historical units exactly when the
plan's `context_needed` flag is false — emptiness of the requested time
ranges does not by itself suppress history (with `context_needed` true and a
null range the Last Active Day window applies, as the counterexample
shows). -/
theorem claim4_focused_mode_amended (env : Env) (msg : Msg)
    (plan : PlannerOutputLegacy) (cb : String) (ie : Bool) (ctx : List CtxUnit)
    (hcn : plan.context_needed = false)
    (h : gatherContext env msg plan cb ie = .ok ctx) :
    ∀ u ∈ ctx, u.kind ≠ UnitKind.history := by
  obtain ⟨cur, hc, rfl⟩ := gatherContext_shape env msg plan cb ie ctx h
  have hc' : currentMediaOn env (if msg.hasQuotedMsg then env.quoted else msg)
      plan cb ie = .ok cur := hc
  have hcur := currentMediaOn_spec env _ plan cb ie cur hc'
  have hnil : (if plan.context_needed then
      handleHistoricalContext env env.recent plan else []) = [] := by
    rw [hcn]
    simp
  intro u hu
  rw [hnil, List.append_nil] at hu
  rcases List.mem_append.mp hu with hua | huf
  · rw [(hcur.2 u hua).2]
    decide
  · rw [List.mem_singleton.mp huf]
    simp

/-- Witness for the amended C4: with `context_needed` off, the assembled
context of a concrete run has no history units. -/
theorem claim4_witness :
    ((okOr (gatherContext env4 hMsg4 plan4b "hi" false)).filter
      (fun u => u.kind == UnitKind.history)).length = 0 := by
  have h := claim4_focused_mode_amended env4 hMsg4 plan4b "hi" false
    (okOr (gatherContext env4 hMsg4 plan4b "hi" false)) rfl rfl
  rw [List.filter_eq_nil_iff.mpr fun u hu => by simp [beq_iff_eq, h u hu]]
  rfl

/-- When no real image is in play, `processHistoryMessage` emits the text
unit: header, cleaned body, then the accumulated annotations. -/
theorem processHistoryContent_text (env : Env) (msg : Msg) (d : Int)
    (himg : (msg.hasMedia && msg.type == MsgType.image) = false) :
    processHistoryContent env msg d =
      .text ("[" ++ (if msg.fromMe then env.ownerName else env.senderName msg) ++
        "] (" ++ env.isoString d ++ "): " ++ stripMoaiTrim msg.body ++
        (historyAudioNote env msg ++ "" ++ "")) := by
  unfold processHistoryContent historyImageFetch
  rw [himg]
  rfl

/-- C7 counterexample: in the concrete reply-to-voice-note run with a failing
transcription capability, `gatherContext` *raises* (the error propagates —
there is no try/catch on the current/quoted-message audio path), so no
`[Audio Transcription Failed]` unit is emitted and no context is assembled
at all. -/
theorem claim7_counterexample :
    env7.transcribeText qMsg1.id = .error () ∧
    run7 = .error () ∧
    isOkB run7 = false := by
  refine ⟨rfl, rfl, rfl⟩

/-- C7 (amended): transcription failures are recovered locally only on the
*historical* path: (1) a history audio message whose download or
transcription throws yields a text unit annotated
`[Audio Transcription Failed]`; (2) `handleHistoricalContext` still emits
one unit per in-window message, whatever the media capabilities do; (3) when
the current/quoted target carries no media, assembly completes for any
(even always-failing) capabilities.  For the current/quoted audio message
itself a transcription failure propagates and aborts the turn, as the
counterexample shows. -/
theorem claim7_history_failure_amended :
    (∀ (env : Env) (msg : Msg) (d : Int),
      msg.hasMedia = true →
      (msg.type = MsgType.audio ∨ msg.type = MsgType.ptt) →
      (env.download msg.id = .error () ∨
        ∃ m, env.download msg.id = .ok (some m) ∧
          env.transcribeText msg.id = .error ()) →
      strIncludes (unitText (processHistoryMessage env msg d))
        "[Audio Transcription Failed]" = true) ∧
    (∀ (env : Env) (recent : List Msg) (plan : PlannerOutputLegacy),
      (handleHistoricalContext env recent plan).length =
        (recent.filter
          (fun m => (historyWindow env recent plan).1 ≤ m.timestamp * 1000 &&
            m.timestamp * 1000 ≤ (historyWindow env recent plan).2)).length) ∧
    (∀ (env : Env) (msg : Msg) (plan : PlannerOutputLegacy) (cb : String)
      (ie : Bool),
      (if msg.hasQuotedMsg then env.quoted else msg).hasMedia = false →
      isOkB (gatherContext env msg plan cb ie) = true) := by
  refine ⟨?_, ?_, ?_⟩
  · intro env msg d hM hT hFail
    have hbeqImg : (msg.type == MsgType.image) = false := by
      rcases hT with h | h <;> rw [h] <;> decide
    have hbeqAud : (msg.type == MsgType.audio || msg.type == MsgType.ptt) = true := by
      rcases hT with h | h <;> rw [h] <;> decide
    have himg2 : (msg.hasMedia && msg.type == MsgType.image) = false := by
      rw [hM, hbeqImg]
      rfl
    have hnote : historyAudioNote env msg = "\n[Audio Transcription Failed]" := by
      unfold historyAudioNote
      rw [hM, hbeqAud]
      simp only [Bool.and_self, if_true]
      rcases hFail with hdl | ⟨m, hdl, htr⟩
      · rw [hdl]
      · rw [hdl, htr]
    unfold processHistoryMessage unitText
    dsimp only
    rw [processHistoryContent_text env msg d himg2, hnote]
    exact strIncludes_failTag_middle _ _ _
  · intro env recent plan
    have he : handleHistoricalContext env recent plan =
        (recent.filter
            (fun m => (historyWindow env recent plan).1 ≤ m.timestamp * 1000 &&
              m.timestamp * 1000 ≤ (historyWindow env recent plan).2)).map
          (fun m => processHistoryMessage env m (m.timestamp * 1000)) := rfl
    rw [he, List.length_map]
  · intro env msg plan cb ie hM0
    have hcur : handleCurrentMessageMedia env msg plan cb ie =
        .ok { units := [], finalContent := .text ("[CURRENT_QUERY] " ++ cb),
              downloads := [] } := by
      unfold handleCurrentMessageMedia
      dsimp only
      unfold currentMediaOn
      dsimp only
      rw [hM0]
      rfl
    unfold gatherContext
    rw [hcur]
    rfl

/-- Witness for the amended C7: under the always-failing transcriber, the
history unit for the voice note carries the failure tag, the history pass
still produces one unit for the one in-window message, and a media-free run
completes. -/
theorem claim7_witness :
    strIncludes (unitText (processHistoryMessage env7 qMsg1 865000000))
      "[Audio Transcription Failed]" = true ∧
    (handleHistoricalContext env7 [qMsg1] plan1).length =
      (([qMsg1] : List Msg).filter
        (fun m => (historyWindow env7 [qMsg1] plan1).1 ≤ m.timestamp * 1000 &&
          m.timestamp * 1000 ≤ (historyWindow env7 [qMsg1] plan1).2)).length ∧
    isOkB (gatherContext env7 plainMsg7 plan1 "what happened" false) = true :=
  ⟨claim7_history_failure_amended.1 env7 qMsg1 865000000 rfl (Or.inr rfl)
      (Or.inr ⟨{ data := "QUJD", mimetype := "audio/ogg" }, rfl, rfl⟩),
    claim7_history_failure_amended.2.1 env7 [qMsg1] plan1,
    claim7_history_failure_amended.2.2 env7 plainMsg7 plan1 "what happened" false
      rfl⟩

/-- C8 counterexample: a transcription that succeeds with the *empty* string
is stored in the cache, yet the next call for the same media id invokes the
API again — the cache check `if (this.cache[mediaId])` treats `""` as a
miss (JS truthiness) — so "a subsequent call returns the cached text without
invoking the capability again" is false for this id. -/
theorem claim8_counterexample :
    transcribe (.ok "") [] "m" =
      { result := .ok "", invoked := true, cache := [("m", "")] } ∧
    List.lookup "m" [("m", "")] = some "" ∧
    (transcribe (.ok "second") [("m", "")] "m").invoked = true ∧
    (transcribe (.ok "second") [("m", "")] "m").result = .ok "second" := by
  refine ⟨rfl, rfl, rfl, rfl⟩

/-- C8 (amended): a cached *non-empty* transcription is returned as-is
without invoking the API and without touching the cache; and a first call
that finds no cache entry and succeeds invokes the API once and stores its
result keyed by the media id (a cached empty string, however, is treated as
a miss, as the counterexample shows). -/
theorem claim8_cache_amended :
    (∀ (api : Except Unit String) (cache : List (String × String)) (id t : String),
      List.lookup id cache = some t → t ≠ "" →
      transcribe api cache id =
        { result := .ok t, invoked := false, cache := cache }) ∧
    (∀ (text : String) (cache : List (String × String)) (id : String),
      List.lookup id cache = none →
      transcribe (.ok text) cache id =
        { result := .ok text, invoked := true, cache := cacheSet cache id text } ∧
      List.lookup id (cacheSet cache id text) = some text) := by
  constructor
  · intro api cache id t hl ht
    unfold transcribe
    rw [hl]
    dsimp only
    have : (t == "") = false := by
      simp [beq_iff_eq, ht]
    rw [this]
    rfl
  · intro text cache id hl
    constructor
    · unfold transcribe
      rw [hl]
    · unfold cacheSet
      simp [List.lookup]

/-- Witness for the amended C8: a cached non-empty entry is served even when
the API would fail, and a fresh id stores its transcription. -/
theorem claim8_witness :
    transcribe (.error ()) [("a", "hello")] "a" =
      { result := .ok "hello", invoked := false, cache := [("a", "hello")] } ∧
    (transcribe (.ok "x") [] "m" =
      { result := .ok "x", invoked := true, cache := cacheSet [] "m" "x" } ∧
    List.lookup "m" (cacheSet [] "m" "x") = some "x") :=
  ⟨claim8_cache_amended.1 (.error ()) [("a", "hello")] "a" "hello" rfl
      (by decide),
    claim8_cache_amended.2 "x" [] "m" rfl⟩
